import Mathlib

/-!
Verification development for the binance-future-scan-web client.

The definitions below are a shallow embedding of the repository's core:

* `Json`, `JsVal`, `handleMessage` — the message normalizer of
  `src/services/websocket.ts` (`WebSocketService.handleMessage`);
* the `WS` namespace — the connection state machine shared by
  `src/services/websocket.ts` (`WebSocketService`) and
  `src/services/websocketClient.ts` (`WebSocketClientService`): `connect`,
  `disconnect`, `updateCallbacks` and the `onopen` / `onerror` / `onclose`
  transport handlers, together with the reconnect timer body, modelled as a
  step function over an explicit world (service fields, created sockets,
  pending timers, the stored auth token, and a trace of callback
  invocations);
* the `Chart` namespace — the price-scaling arithmetic of
  `SignalChart.drawChart` and the symbol-navigation logic of the
  `SignalChart` keyboard and touch handlers.

JavaScript values that can be `undefined` are modelled with `JsVal`
(`undef` is `undefined`, `val j` a JSON value); JS truthiness is
`Json.truthy` / `JsVal.truthy`.  Machine integers and JS numbers carry no
overflow concerns in the fragments modelled here; prices use `Rat` because
the scaling arithmetic is exact on the inputs of interest.
-/

/-- A decoded JSON value (the result of `JSON.parse`).  Numbers are modelled
as integers, which suffices for every frame in the claims; object field
lists are assumed duplicate-free, as `JSON.parse` produces. -/
inductive Json where
  | null
  | bool (b : Bool)
  | num (n : Int)
  | str (s : String)
  | arr (xs : List Json)
  | obj (fields : List (String × Json))

/-- Field lookup on an object's field list (`undefined` ↦ `none`). -/
def Json.lookupField : List (String × Json) → String → Option Json
  | [], _ => none
  | (k, v) :: rest, key => if k = key then some v else Json.lookupField rest key

/-- `j.key` in JavaScript: `none` when `j` is not an object or the key is
absent. -/
def Json.getField (j : Json) (key : String) : Option Json :=
  match j with
  | .obj fs => Json.lookupField fs key
  | _ => none

/-- JavaScript truthiness of a JSON value. -/
def Json.truthy : Json → Bool
  | .null => false
  | .bool b => b
  | .num n => n != 0
  | .str s => s != ""
  | .arr _ => true
  | .obj _ => true

/-- Is the value a JS array? -/
def Json.isArr : Json → Bool
  | .arr _ => true
  | _ => false

/-- A JavaScript value as seen by the normalizer: either `undefined` or a
decoded JSON value. -/
inductive JsVal where
  | undefinedV
  | val (j : Json)

/-- JavaScript truthiness of a `JsVal` (`undefined` is falsy). -/
def JsVal.truthy : JsVal → Bool
  | .undefinedV => false
  | .val j => j.truthy

/-- `message.event` / `message.type` / `message.data` access: an absent
field is `undefined`. -/
def Json.fieldVal (j : Json) (key : String) : JsVal :=
  match j.getField key with
  | some v => .val v
  | none => .undefinedV

/-- `message.event || message.type` from `handleMessage`. -/
def messageType (m : Json) : JsVal :=
  let ev := m.fieldVal "event"
  if ev.truthy then ev else m.fieldVal "type"

/-- `message.data` from `handleMessage`. -/
def msgData (m : Json) : JsVal := m.fieldVal "data"

/-- List-of-chars prefix test (JS `String.prototype.startsWith`). -/
def charsStartWith : List Char → List Char → Bool
  | _, [] => true
  | [], _ :: _ => false
  | a :: as_, b :: bs => a = b && charsStartWith as_ bs

/-- List-of-chars substring test. -/
def charsContain : List Char → List Char → Bool
  | [], needle => charsStartWith [] needle
  | hay@(_ :: t), needle => charsStartWith hay needle || charsContain t needle

/-- JS `String.prototype.includes`. -/
def strIncludes (s sub : String) : Bool := charsContain s.toList sub.toList

/-- JS `Array.prototype.includes(str)`: membership by `===`, which on a
heterogeneous array matches only the equal string. -/
def listHasStr (xs : List Json) (s : String) : Bool :=
  xs.any fun j => match j with | .str t => t = s | _ => false

/-- One dispatch decision of `WebSocketService.handleMessage`: which
callback is invoked and with what argument. -/
inductive Emit where
  | botStatus (d : JsVal)
  | balance (d : JsVal)
  | positions (ps : List JsVal)
  | incomeHistory (xs : List JsVal)
  | spotOrders (xs : List JsVal)
  | errorMsg (m : JsVal)

/-- Outcome of `handleMessage`: a single callback dispatch, a silent drop
(diagnostic log only), or a thrown `TypeError` (caught by the `onmessage`
wrapper; reached only when the resolved kind is a number, boolean or object,
on which `.includes` is not a function). -/
inductive HandleResult where
  | emit (e : Emit)
  | dropped
  | threw

/-- `Array.isArray(data) ? data : (data ? [data] : [])` — the `positions`
case. -/
def positionsArray (d : JsVal) : List JsVal :=
  match d with
  | .val (.arr xs) => xs.map .val
  | _ => if d.truthy then [d] else []

/-- `Array.isArray(data) ? data : [data]` — the `position_update` case. -/
def positionUpdateArray (d : JsVal) : List JsVal :=
  match d with
  | .val (.arr xs) => xs.map .val
  | _ => [d]

/-- `Array.isArray(data) ? data : []` — the `income_history` /
`spot_orders` cases. -/
def arrayOrEmpty (d : JsVal) : List JsVal :=
  match d with
  | .val (.arr xs) => xs.map .val
  | _ => []

/-- `message.data?.balance !== undefined ? message.data.balance :
message.data` — the `balance_update` / `account_update` case. -/
def balancePayload (d : JsVal) : JsVal :=
  match d with
  | .val j =>
    match j.getField "balance" with
    | some b => .val b
    | none => d
  | .undefinedV => d

/-- `message.data?.message || message.data || 'Unknown error'` — the
`error` case. -/
def errorPayload (d : JsVal) : JsVal :=
  let m1 : JsVal :=
    match d with
    | .val j => j.fieldVal "message"
    | .undefinedV => .undefinedV
  if m1.truthy then m1 else if d.truthy then d else .val (.str "Unknown error")

/-- The `default` branch of the switch: `messageType?.includes('balance')`
etc., with optional chaining on `null`/`undefined` and a `TypeError` on
values without `.includes`. -/
def handleDefault (mt : JsVal) (d : JsVal) : HandleResult :=
  match mt with
  | .undefinedV => .dropped
  | .val .null => .dropped
  | .val (.str s) =>
    if strIncludes s "balance" || strIncludes s "account" then .emit (.balance d)
    else if strIncludes s "position" then .emit (.positions (positionUpdateArray d))
    else .dropped
  | .val (.arr xs) =>
    if listHasStr xs "balance" || listHasStr xs "account" then .emit (.balance d)
    else if listHasStr xs "position" then .emit (.positions (positionUpdateArray d))
    else .dropped
  | .val (.num _) => .threw
  | .val (.bool _) => .threw
  | .val (.obj _) => .threw

/-- `WebSocketService.handleMessage` (src/services/websocket.ts): resolve
the kind from `event || type` and dispatch.  The JS `switch` compares the
resolved kind against string literals with `===`, which only a string can
match; it is rendered as an equality chain on the string case. -/
def handleMessage (m : Json) : HandleResult :=
  let mt := messageType m
  let d := msgData m
  match mt with
  | .val (.str s) =>
    if s = "bot_status" ∨ s = "status_update" then .emit (.botStatus d)
    else if s = "balance" then .emit (.balance d)
    else if s = "balance_update" ∨ s = "account_update" then .emit (.balance (balancePayload d))
    else if s = "positions" then .emit (.positions (positionsArray d))
    else if s = "position_update" then .emit (.positions (positionUpdateArray d))
    else if s = "income_history" then .emit (.incomeHistory (arrayOrEmpty d))
    else if s = "spot_orders" then .emit (.spotOrders (arrayOrEmpty d))
    else if s = "error" then .emit (.errorMsg (errorPayload d))
    else handleDefault mt d
  | _ => handleDefault mt d

/-- A frame `{"type": t, "data": d}`. -/
def mkFrame (t : String) (d : Json) : Json :=
  Json.obj [("type", .str t), ("data", d)]

/-- A frame `{"type": t}` with no `data` field. -/
def mkFrameNoData (t : String) : Json :=
  Json.obj [("type", .str t)]

namespace WS

/-- Browser `WebSocket.readyState` of one socket: CONNECTING, OPEN,
CLOSING, CLOSED. -/
inductive SockPhase where
  | connecting
  | opened
  | closing
  | closed
  deriving DecidableEq, Repr

/-- One socket created by `new WebSocket(url)`: its ready-state phase and
whether its `close` event has already been delivered (a browser delivers it
at most once). -/
structure Sock where
  phase : SockPhase
  closeEvented : Bool
  deriving DecidableEq, Repr

/-- Is the socket live, i.e. CONNECTING or OPEN? -/
def Sock.isLive (sk : Sock) : Bool :=
  match sk.phase with
  | .connecting => true
  | .opened => true
  | _ => false

/-- Observable events of one execution: socket creations and callback
invocations.  A callback invocation records the identity (a `Nat` tag) of
the registered handler that was called; a callback that is not registered
is simply not invoked, as with `this.callbacks.onX?.()`. -/
inductive Evt where
  | sockCreated (sid : Nat)
  | cbConnect (h : Nat)
  | cbDisconnect (h : Nat)
  | cbError (h : Nat) (msg : String)
  deriving DecidableEq, Repr

/-- The callback-set interface the connection machine needs from either
channel's callback record: the `{...old, ...new}` merge, the empty record
`{}`, and the three handlers the machine itself invokes. -/
structure CallbackSig (C : Type) where
  merge : C → C → C
  empty : C
  onConnect : C → Option Nat
  onDisconnect : C → Option Nat
  onError : C → Option Nat

/-- The world of one channel's service: the service's own fields (`ws`,
`reconnectAttempts`, `isConnecting`, `shouldReconnect`, `callbacks`),
every socket created so far (indexed by creation order; `ws` holds an
index), the number of pending reconnect timers, the `auth_token` entry of
localStorage, and the event trace (newest first). -/
structure World (C : Type) where
  ws : Option Nat
  reconnectAttempts : Nat
  isConnecting : Bool
  shouldReconnect : Bool
  callbacks : C
  socks : List Sock
  timers : Nat
  token : Option String
  events : List Evt
  deriving Repr

/-- `maxReconnectAttempts = 5`. -/
def maxReconnectAttempts : Nat := 5

/-- `reconnectDelay = 3000` (milliseconds; time itself is not modelled,
only the pending/fired status of timers). -/
def reconnectDelay : Nat := 3000

/-- The socket at index `s`; out-of-range indices read as a dead socket. -/
def getSock {C : Type} (w : World C) (s : Nat) : Sock :=
  w.socks.getD s { phase := .closed, closeEvented := true }

/-- Replace the socket at index `s`. -/
def setSock {C : Type} (w : World C) (s : Nat) (sk : Sock) : World C :=
  { w with socks := w.socks.set s sk }

/-- Invoke an optional handler: record the event iff it is registered. -/
def emitTo {C : Type} (h? : Option Nat) (mk : Nat → Evt) (w : World C) : World C :=
  match h? with
  | some h => { w with events := mk h :: w.events }
  | none => w

/-- `ws.close()`: CONNECTING or OPEN goes to CLOSING, otherwise a no-op. -/
def closeSock {C : Type} (w : World C) (s : Nat) : World C :=
  match (getSock w s).phase with
  | .connecting => setSock w s { getSock w s with phase := .closing }
  | .opened => setSock w s { getSock w s with phase := .closing }
  | _ => w

/-- Error message of the missing-token branch of `connect`. -/
def noTokenMsg : String := "No authentication token found. Please login again."

/-- Error message of the 1008 close branch. -/
def authFailedMsg : String := "Authentication failed. Please login again."

/-- Error message of the timer body when the token has disappeared. -/
def tokenExpiredMsg : String := "Authentication token expired. Please login again."

/-- Error message of the attempts-exhausted branch. -/
def maxAttemptsMsg : String := "Failed to reconnect to WebSocket server after multiple attempts"

/-- Error message of the `onerror` handler (`error.type` is `"error"`). -/
def connErrorMsg : String := "WebSocket connection error: error"

/-- `this.ws && this.ws.readyState === WebSocket.OPEN`. -/
def wsReadyOpen {C : Type} (w : World C) : Bool :=
  match w.ws with
  | some s => (getSock w s).phase = SockPhase.opened
  | none => false

/-- `updateCallbacks(callbacks)`: merge into the existing registration. -/
def updateCallbacks {C : Type} (sig : CallbackSig C) (w : World C) (cbs : C) : World C :=
  { w with callbacks := sig.merge w.callbacks cbs }

/-- `connect(callbacks)`: the two idempotency guards, then callback merge,
flag setting, the token check with its local error, and socket creation. -/
def connect {C : Type} (sig : CallbackSig C) (w : World C) (cbs : C) : World C :=
  if wsReadyOpen w then updateCallbacks sig w cbs
  else if w.isConnecting then updateCallbacks sig w cbs
  else
    let w1 : World C :=
      { w with callbacks := sig.merge w.callbacks cbs,
               shouldReconnect := true,
               isConnecting := true }
    match w1.token with
    | none =>
      emitTo (sig.onError w1.callbacks) (fun h => .cbError h noTokenMsg)
        { w1 with isConnecting := false }
    | some _ =>
      let sid := w1.socks.length
      { w1 with socks := w1.socks ++ [{ phase := .connecting, closeEvented := false }],
                ws := some sid,
                events := .sockCreated sid :: w1.events }

/-- `disconnect()`: clear the flags, close a CONNECTING/OPEN socket and
drop the reference, clear the callbacks.  Pending timers are NOT
cancelled. -/
def disconnect {C : Type} (sig : CallbackSig C) (w : World C) : World C :=
  let w1 : World C := { w with shouldReconnect := false, isConnecting := false }
  let w2 : World C :=
    match w1.ws with
    | some s => { closeSock w1 s with ws := none }
    | none => w1
  { w2 with callbacks := sig.empty }

/-- Transport delivers `open` on socket `s` (possible only while `s` is
CONNECTING); then the service's `onopen` handler runs with `wsRef = s`. -/
def onOpenEvt {C : Type} (sig : CallbackSig C) (w : World C) (s : Nat) : World C :=
  match (getSock w s).phase with
  | .connecting =>
    let w1 := setSock w s { getSock w s with phase := .opened }
    if w1.ws ≠ some s ∨ w1.shouldReconnect = false then
      match w1.ws with
      | some cur => closeSock w1 cur
      | none => w1
    else
      emitTo (sig.onConnect w1.callbacks) .cbConnect
        { w1 with isConnecting := false, reconnectAttempts := 0 }
  | _ => w

/-- Transport delivers `error` on socket `s`.  Per the WebSocket standard
an error event means the connection has failed or been torn down: the
socket will never open afterwards and only its `close` event remains, so
the phase becomes CLOSED here.  The service's `onerror` handler performs
no staleness check. -/
def onErrorEvt {C : Type} (sig : CallbackSig C) (w : World C) (s : Nat) : World C :=
  match (getSock w s).phase with
  | .closed => w
  | _ =>
    let w1 := setSock w s { getSock w s with phase := .closed }
    emitTo (sig.onError w1.callbacks) (fun h => .cbError h connErrorMsg)
      { w1 with isConnecting := false }

/-- Transport delivers `close` with code `code` on socket `s` (at most
once per socket); then the service's `onclose` handler runs with
`wsRef = s`: staleness check, reference clearing, `onDisconnect`, the 1008
branch, the retry branch (which only schedules a timer), and the
exhaustion branch. -/
def onCloseEvt {C : Type} (sig : CallbackSig C) (w : World C) (s : Nat) (code : Nat) : World C :=
  if (getSock w s).closeEvented then w
  else
    let w1 := setSock w s { phase := .closed, closeEvented := true }
    if w1.ws ≠ some s then w1
    else
      let w2 :=
        emitTo (sig.onDisconnect w1.callbacks) .cbDisconnect
          { w1 with isConnecting := false, ws := none }
      if code = 1008 then
        emitTo (sig.onError w2.callbacks) (fun h => .cbError h authFailedMsg)
          { w2 with shouldReconnect := false }
      else if w2.shouldReconnect = true ∧ w2.reconnectAttempts < maxReconnectAttempts then
        { w2 with reconnectAttempts := w2.reconnectAttempts + 1, timers := w2.timers + 1 }
      else if w2.reconnectAttempts ≥ maxReconnectAttempts then
        emitTo (sig.onError w2.callbacks) (fun h => .cbError h maxAttemptsMsg)
          { w2 with shouldReconnect := false }
      else w2

/-- A pending reconnect timer fires: re-read the token; if present call
`this.connect(this.callbacks)`, else disable reconnection and report.  The
timer body does not consult `shouldReconnect`. -/
def timerFire {C : Type} (sig : CallbackSig C) (w : World C) : World C :=
  if w.timers = 0 then w
  else
    let w1 : World C := { w with timers := w.timers - 1 }
    match w1.token with
    | some _ => connect sig w1 w1.callbacks
    | none =>
      emitTo (sig.onError w1.callbacks) (fun h => .cbError h tokenExpiredMsg)
        { w1 with shouldReconnect := false }

/-- One interaction with the service: an API call, a transport event on a
created socket, a timer expiry, or an external change of the stored
token. -/
inductive Act (C : Type) where
  | connect (cbs : C)
  | disconnect
  | sockOpen (s : Nat)
  | sockError (s : Nat)
  | sockClose (s : Nat) (code : Nat)
  | timerFire
  | setToken (t : Option String)

/-- The step function: dispatch one action. -/
def step {C : Type} (sig : CallbackSig C) (w : World C) (a : Act C) : World C :=
  match a with
  | .connect cbs => connect sig w cbs
  | .disconnect => disconnect sig w
  | .sockOpen s => onOpenEvt sig w s
  | .sockError s => onErrorEvt sig w s
  | .sockClose s code => onCloseEvt sig w s code
  | .timerFire => timerFire sig w
  | .setToken t => { w with token := t }

/-- The freshly constructed service (field initializers of the class),
with initial stored token `t`. -/
def init {C : Type} (sig : CallbackSig C) (t : Option String) : World C :=
  { ws := none, reconnectAttempts := 0, isConnecting := false, shouldReconnect := true,
    callbacks := sig.empty, socks := [], timers := 0, token := t, events := [] }

/-- Run a list of actions from a world. -/
def run {C : Type} (sig : CallbackSig C) (w : World C) (tr : List (Act C)) : World C :=
  tr.foldl (step sig) w

/-- Number of live (CONNECTING or OPEN) sockets in the world. -/
def liveCount {C : Type} (w : World C) : Nat :=
  (w.socks.filter Sock.isLive).length

end WS

/-- `o.orElse old` with JS object-spread semantics: a key present in the
newer record overrides the older one. -/
def ovr (newer older : Option Nat) : Option Nat :=
  match newer with
  | some x => some x
  | none => older

/-- The account channel's callback record (`WebSocketCallbacks` in
src/services/websocket.ts); each present handler is identified by a `Nat`
tag. -/
structure WebSocketCallbacks where
  onBotStatus : Option Nat
  onBalance : Option Nat
  onPositions : Option Nat
  onIncomeHistory : Option Nat
  onSpotOrders : Option Nat
  onError : Option Nat
  onConnect : Option Nat
  onDisconnect : Option Nat
  deriving DecidableEq, Repr

/-- `{...old, ...newer}` on account callbacks. -/
def WebSocketCallbacks.merge (old newer : WebSocketCallbacks) : WebSocketCallbacks :=
  { onBotStatus := ovr newer.onBotStatus old.onBotStatus
    onBalance := ovr newer.onBalance old.onBalance
    onPositions := ovr newer.onPositions old.onPositions
    onIncomeHistory := ovr newer.onIncomeHistory old.onIncomeHistory
    onSpotOrders := ovr newer.onSpotOrders old.onSpotOrders
    onError := ovr newer.onError old.onError
    onConnect := ovr newer.onConnect old.onConnect
    onDisconnect := ovr newer.onDisconnect old.onDisconnect }

/-- `{}` on account callbacks. -/
def WebSocketCallbacks.empty : WebSocketCallbacks :=
  ⟨none, none, none, none, none, none, none, none⟩

/-- The account channel machine (`WebSocketService`). -/
def accountSig : WS.CallbackSig WebSocketCallbacks :=
  { merge := WebSocketCallbacks.merge
    empty := WebSocketCallbacks.empty
    onConnect := WebSocketCallbacks.onConnect
    onDisconnect := WebSocketCallbacks.onDisconnect
    onError := WebSocketCallbacks.onError }

/-- The signal channel's callback record (`WebSocketClientCallbacks` in
src/services/websocketClient.ts). -/
structure WebSocketClientCallbacks where
  onScanSignal : Option Nat
  onError : Option Nat
  onConnect : Option Nat
  onDisconnect : Option Nat
  deriving DecidableEq, Repr

/-- `{...old, ...newer}` on signal-channel callbacks. -/
def WebSocketClientCallbacks.merge (old newer : WebSocketClientCallbacks) : WebSocketClientCallbacks :=
  { onScanSignal := ovr newer.onScanSignal old.onScanSignal
    onError := ovr newer.onError old.onError
    onConnect := ovr newer.onConnect old.onConnect
    onDisconnect := ovr newer.onDisconnect old.onDisconnect }

/-- `{}` on signal-channel callbacks. -/
def WebSocketClientCallbacks.empty : WebSocketClientCallbacks :=
  ⟨none, none, none, none⟩

/-- The signal channel machine (`WebSocketClientService`); its `connect`,
`disconnect` and transport handlers are line-for-line the same state
machine as the account service's, differing only in the callback record
and the message normalizer. -/
def clientSig : WS.CallbackSig WebSocketClientCallbacks :=
  { merge := WebSocketClientCallbacks.merge
    empty := WebSocketClientCallbacks.empty
    onConnect := WebSocketClientCallbacks.onConnect
    onDisconnect := WebSocketClientCallbacks.onDisconnect
    onError := WebSocketClientCallbacks.onError }

namespace Chart

/-- One OHLC candle as assembled in `SignalChart.drawChart` (the `open`
field is renamed `openP`: `open` is a Lean keyword).  Prices are exact
rationals. -/
structure Candle where
  openP : Rat
  high : Rat
  low : Rat
  close : Rat
  deriving DecidableEq, Repr

/-- `Math.min(...)` over a list; `drawChart` returns before the scaling
block when the candle list is empty, so the value on `[]` (0 here, Infinity
in JS) is never consulted. -/
def listMin : List Rat → Rat
  | [] => 0
  | x :: xs => xs.foldl min x

/-- `Math.max(...)` over a list; same emptiness caveat as `listMin`. -/
def listMax : List Rat → Rat
  | [] => 0
  | x :: xs => xs.foldl max x

/-- `minPrice = Math.min(...lowValues)`. -/
def minPrice (cs : List Candle) : Rat := listMin (cs.map Candle.low)

/-- `maxPrice = Math.max(...highValues)`. -/
def maxPrice (cs : List Candle) : Rat := listMax (cs.map Candle.high)

/-- `priceRange = maxPrice - minPrice || 1` (JS: `0` is falsy, so a zero
difference becomes 1). -/
def priceRange (cs : List Candle) : Rat :=
  if maxPrice cs - minPrice cs = 0 then 1 else maxPrice cs - minPrice cs

/-- `pricePadding = priceRange * 0.1`. -/
def pricePadding (cs : List Candle) : Rat := priceRange cs * (1 / 10)

/-- `minPriceScaled = minPrice - pricePadding`. -/
def minPriceScaled (cs : List Candle) : Rat := minPrice cs - pricePadding cs

/-- `maxPriceScaled = maxPrice + pricePadding`. -/
def maxPriceScaled (cs : List Candle) : Rat := maxPrice cs + pricePadding cs

/-- `scaledRange = maxPriceScaled - minPriceScaled` — the divisor of every
vertical coordinate computation in `drawChart`. -/
def scaledRange (cs : List Candle) : Rat := maxPriceScaled cs - minPriceScaled cs

/-- The vertical mapping
`y = padding.top + chartHeight - ((price - minPriceScaled) / scaledRange) * chartHeight`
used for wicks, bodies, EMA polylines and the close-price line. -/
def priceToY (cs : List Candle) (paddingTop chartHeight price : Rat) : Rat :=
  paddingTop + chartHeight - ((price - minPriceScaled cs) / scaledRange cs) * chartHeight

/-- The transient chart navigation state: the displayed symbol and the
selected candle index (`null` = no selection). -/
structure NavState where
  currentSymbol : String
  selectedIndex : Option Nat
  deriving DecidableEq, Repr

/-- The two symbol-navigation keys of `handleKeyDown`. -/
inductive ArrowKey where
  | arrowUp
  | arrowDown
  deriving DecidableEq, Repr

/-- The ArrowUp/ArrowDown branch of `SignalChart`'s `handleKeyDown`:
guard on an empty list, `indexOf` guard, wrap-around index step, then —
when the index moved and `symbolList[newIndex]` is truthy — set the new
symbol and fire `onSymbolChange` (returned as `some newSymbol`).  This
branch never touches `selectedIndex`. -/
def handleKeyDownSymbolNav (key : ArrowKey) (symbolList : List String)
    (st : NavState) : NavState × Option String :=
  if symbolList.length = 0 then (st, none)
  else
    match symbolList.findIdx? (fun x => x = st.currentSymbol) with
    | none => (st, none)
    | some currentIndex =>
      let newIndex :=
        match key with
        | .arrowUp => if currentIndex = 0 then symbolList.length - 1 else currentIndex - 1
        | .arrowDown => if currentIndex = symbolList.length - 1 then 0 else currentIndex + 1
      let newSymbol := symbolList.getD newIndex ""
      if newIndex ≠ currentIndex ∧ newSymbol ≠ "" then
        ({ st with currentSymbol := newSymbol }, some newSymbol)
      else (st, none)

/-- The swipe branch of `SignalChart`'s `handleTouchEnd` for a touch whose
target is outside the canvas and whose start coordinates were recorded:
horizontal-swipe test (`|deltaX| > 50 && |deltaX| > deltaY`), `indexOf`
guard, wrap-around step by swipe direction, then — when the index moved
and the symbol is truthy — set the new symbol, CLEAR the selection, and
fire `onSymbolChange`. -/
def handleTouchEndSwipeNav (touchStartX touchStartY touchEndX touchEndY : Int)
    (symbolList : List String) (st : NavState) : NavState × Option String :=
  if symbolList.length = 0 then (st, none)
  else
    let deltaY := (touchStartY - touchEndY).natAbs
    let deltaX := touchStartX - touchEndX
    let minSwipeDistance : Nat := 50
    if deltaX.natAbs > minSwipeDistance ∧ deltaX.natAbs > deltaY then
      match symbolList.findIdx? (fun x => x = st.currentSymbol) with
      | none => (st, none)
      | some currentIndex =>
        let newIndex :=
          if deltaX > 0 then
            if currentIndex = 0 then symbolList.length - 1 else currentIndex - 1
          else
            if currentIndex = symbolList.length - 1 then 0 else currentIndex + 1
        let newSymbol := symbolList.getD newIndex ""
        if newIndex ≠ currentIndex ∧ newSymbol ≠ "" then
          ({ currentSymbol := newSymbol, selectedIndex := none }, some newSymbol)
        else (st, none)
    else (st, none)

end Chart

namespace WS

/-- The connection invariant the service is meant to maintain: every live
(CONNECTING or OPEN) socket is the active handle `ws` — hence there is at
most one — and while the active handle is still CONNECTING the
`isConnecting` flag is up (so the idempotency guard of `connect` blocks a
duplicate socket). -/
def Inv {C : Type} (w : World C) : Prop :=
  (∀ i, (getSock w i).isLive = true → w.ws = some i) ∧
  (∀ i, w.ws = some i → (getSock w i).phase = SockPhase.connecting → w.isConnecting = true)

/-- The action is not a stale transport error: an `error` event is
delivered only while its socket is the active handle.  The service's
`onerror` handler performs no reference-identity check, so executions
violating this are the ones that can break the invariant. -/
def errOK {C : Type} (w : World C) (a : Act C) : Prop :=
  ∀ s, a = Act.sockError s → w.ws = some s

/-- Every step of the trace, run from `w`, satisfies `errOK`. -/
def runOK {C : Type} (sig : CallbackSig C) : World C → List (Act C) → Prop
  | _, [] => True
  | w, a :: tr => errOK w a ∧ runOK sig (step sig w a) tr

end WS

/-- An account callback record with every handler registered (distinct
handler tags). -/
def cbFull : WebSocketCallbacks :=
  ⟨some 1, some 2, some 3, some 4, some 5, some 6, some 7, some 8⟩

/-- A signal-channel callback record with every handler registered. -/
def clientCbFull : WebSocketClientCallbacks :=
  ⟨some 11, some 12, some 13, some 14⟩

/-- The disconnect-then-timer scenario: connect, transport closes the
socket with a normal code (scheduling a reconnect timer), the caller
disconnects, then the pending timer fires with the token still in
storage. -/
def c1Trace : List (WS.Act WebSocketCallbacks) :=
  [.connect cbFull, .sockClose 0 1000, .disconnect, .timerFire]

/-- The stale-error scenario: connect (socket 0), disconnect (socket 0 put
into CLOSING), connect again (socket 1), the aborted socket 0 fires its
`error` event (clearing `isConnecting` with no staleness check), then a
third `connect` passes both guards and creates socket 2 while socket 1 is
still CONNECTING. -/
def c4Trace : List (WS.Act WebSocketCallbacks) :=
  [.connect cbFull, .disconnect, .connect cbFull, .sockError 0, .connect cbFull]

/-- An account-channel world whose active socket 0 is OPEN and has not yet
received its close event. -/
def wOpenA : WS.World WebSocketCallbacks :=
  { ws := some 0, reconnectAttempts := 0, isConnecting := false, shouldReconnect := true,
    callbacks := cbFull, socks := [{ phase := .opened, closeEvented := false }],
    timers := 0, token := some "tok", events := [] }

/-- The signal-channel analogue of `wOpenA`. -/
def wOpenC : WS.World WebSocketClientCallbacks :=
  { ws := some 0, reconnectAttempts := 0, isConnecting := false, shouldReconnect := true,
    callbacks := clientCbFull, socks := [{ phase := .opened, closeEvented := false }],
    timers := 0, token := some "tok", events := [] }

/-- `wOpenA` with the reconnection budget exhausted. -/
def wMaxA : WS.World WebSocketCallbacks :=
  { wOpenA with reconnectAttempts := 5 }

/-- `wOpenA` with socket 0 still CONNECTING (a connection attempt in
flight). -/
def wConnA : WS.World WebSocketCallbacks :=
  { wOpenA with socks := [{ phase := .connecting, closeEvented := false }], isConnecting := true }

/-- An idle account-channel world with no stored auth token. -/
def wIdleA : WS.World WebSocketCallbacks :=
  { ws := none, reconnectAttempts := 0, isConnecting := false, shouldReconnect := true,
    callbacks := cbFull, socks := [], timers := 0, token := none, events := [] }

/-- The single all-equal candle of the degenerate-range rendering
scenario. -/
def flatCandle : Chart.Candle := ⟨100, 100, 100, 100⟩

namespace WS

theorem listGetD_append {α : Type} (l : List α) (i : Nat) (x d : α) :
    (l ++ [x]).getD i d = if i = l.length then x else l.getD i d := by
  rcases lt_trichotomy i l.length with h | h | h
  · rw [if_neg (Nat.ne_of_lt h)]
    simp [List.getD, List.getElem?_append_left h]
  · subst h
    simp [List.getD, List.getElem?_append_right (le_refl _)]
  · rw [if_neg (Nat.ne_of_gt h)]
    have h1 : l.length ≤ i := le_of_lt h
    have h2 : (l ++ [x]).length ≤ i := by
      simp only [List.length_append, List.length_cons, List.length_nil]
      omega
    simp [List.getD, List.getElem?_eq_none h1, List.getElem?_eq_none h2]

theorem listGetD_ge {α : Type} (l : List α) (i : Nat) (d : α) (h : l.length ≤ i) :
    l.getD i d = d := by
  simp [List.getD, List.getElem?_eq_none h]

theorem emitTo_eq {C : Type} (h? : Option Nat) (mk : Nat → Evt) (w : World C) :
    emitTo h? mk w
      = { w with events := match h? with | some h => mk h :: w.events | none => w.events } := by
  cases h? <;> rfl

theorem getSock_setSock_self {C : Type} (w : World C) (s : Nat) (sk : Sock)
    (h : s < w.socks.length) : getSock (setSock w s sk) s = sk := by
  simp [getSock, setSock, List.getD, List.getElem?_set_self, h]

theorem getSock_setSock_ne {C : Type} (w : World C) (s j : Nat) (sk : Sock)
    (h : s ≠ j) : getSock (setSock w s sk) j = getSock w j := by
  simp [getSock, setSock, List.getD, List.getElem?_set_ne h]

theorem lt_of_phase_ne_closed {C : Type} (w : World C) (s : Nat)
    (h : (getSock w s).phase ≠ SockPhase.closed) : s < w.socks.length := by
  by_contra hge
  rw [not_lt] at hge
  rw [show getSock w s = { phase := .closed, closeEvented := true } from
    listGetD_ge w.socks s _ hge] at h
  exact h rfl

theorem lt_of_not_closeEvented {C : Type} (w : World C) (s : Nat)
    (h : (getSock w s).closeEvented = false) : s < w.socks.length := by
  by_contra hge
  rw [not_lt] at hge
  rw [show getSock w s = { phase := .closed, closeEvented := true } from
    listGetD_ge w.socks s _ hge] at h
  cases h

theorem isLive_iff (sk : Sock) :
    sk.isLive = true ↔ sk.phase = SockPhase.connecting ∨ sk.phase = SockPhase.opened := by
  rcases sk with ⟨ph, ce⟩
  cases ph <;> simp [Sock.isLive]

theorem closeSock_ws {C : Type} (w : World C) (s : Nat) : (closeSock w s).ws = w.ws := by
  unfold closeSock
  split <;> rfl

theorem closeSock_isConnecting {C : Type} (w : World C) (s : Nat) :
    (closeSock w s).isConnecting = w.isConnecting := by
  unfold closeSock
  split <;> rfl

theorem closeSock_attempts {C : Type} (w : World C) (s : Nat) :
    (closeSock w s).reconnectAttempts = w.reconnectAttempts := by
  unfold closeSock
  split <;> rfl

theorem getSock_closeSock_not_live {C : Type} (w : World C) (s : Nat) :
    (getSock (closeSock w s) s).isLive = false := by
  rcases hph : (getSock w s).phase with _ | _ | _ | _
  · have hlt : s < w.socks.length :=
      lt_of_phase_ne_closed w s (by rw [hph]; exact fun hc => by cases hc)
    simp only [closeSock, hph]
    rw [getSock_setSock_self w s _ hlt]
    rfl
  · have hlt : s < w.socks.length :=
      lt_of_phase_ne_closed w s (by rw [hph]; exact fun hc => by cases hc)
    simp only [closeSock, hph]
    rw [getSock_setSock_self w s _ hlt]
    rfl
  · simp only [closeSock, hph]
    simp [Sock.isLive, hph]
  · simp only [closeSock, hph]
    simp [Sock.isLive, hph]

theorem getSock_closeSock_ne {C : Type} (w : World C) (s j : Nat) (h : s ≠ j) :
    getSock (closeSock w s) j = getSock w j := by
  unfold closeSock
  split
  · exact getSock_setSock_ne w s j _ h
  · exact getSock_setSock_ne w s j _ h
  · rfl

end WS

namespace WS

theorem wsReadyOpen_true {C : Type} (w : World C) (s : Nat)
    (hws : w.ws = some s) (hph : (getSock w s).phase = SockPhase.opened) :
    wsReadyOpen w = true := by
  simp [wsReadyOpen, hws, hph]

theorem connect_inv {C : Type} (sig : CallbackSig C) (w : World C) (cbs : C)
    (hI : Inv w) : Inv (connect sig w cbs) := by
  obtain ⟨h1, h2⟩ := hI
  unfold connect updateCallbacks
  split
  · exact ⟨h1, h2⟩
  · split
    · exact ⟨h1, h2⟩
    · case isFalse.isFalse hro hic =>
      dsimp only
      split
      · case h_1 =>
        rw [emitTo_eq]
        refine ⟨fun i hl => h1 i hl, fun i hws hph => ?_⟩
        exact absurd (h2 i hws hph) (by simpa using hic)
      · case h_2 =>
        constructor
        · intro i hl
          by_cases hi : i = w.socks.length
          · subst hi
            rfl
          · have hgs : getSock
                { w with callbacks := sig.merge w.callbacks cbs, shouldReconnect := true,
                         isConnecting := true,
                         socks := w.socks ++ [{ phase := .connecting, closeEvented := false }],
                         ws := some w.socks.length,
                         events := Evt.sockCreated w.socks.length :: w.events } i = getSock w i := by
              unfold getSock
              show (w.socks ++ [_]).getD i _ = _
              rw [listGetD_append]
              exact if_neg hi
            rw [hgs] at hl
            have hws := h1 i hl
            rcases (isLive_iff _).mp hl with hph | hph
            · exact absurd (h2 i hws hph) (by simpa using hic)
            · exact absurd (wsReadyOpen_true w i hws hph) (by simpa using hro)
        · intro i hws hph
          injection hws with hws
          rfl

end WS

namespace WS

theorem disconnect_inv {C : Type} (sig : CallbackSig C) (w : World C)
    (hI : Inv w) : Inv (disconnect sig w) := by
  obtain ⟨h1, h2⟩ := hI
  unfold disconnect
  dsimp only
  split
  · case h_1 s hws =>
    have hws' : w.ws = some s := hws
    constructor
    · intro i hl
      by_cases hi : i = s
      · subst hi
        have hl' : (getSock (closeSock
            { w with shouldReconnect := false, isConnecting := false } i) i).isLive = true := hl
        have hnl := getSock_closeSock_not_live
          ({ w with shouldReconnect := false, isConnecting := false } : World C) i
        cases hl'.symm.trans hnl
      · have hl' : (getSock (closeSock
            { w with shouldReconnect := false, isConnecting := false } s) i).isLive = true := hl
        rw [getSock_closeSock_ne _ s i (Ne.symm hi)] at hl'
        have hl'' : (getSock w i).isLive = true := hl'
        have := h1 i hl''
        rw [hws'] at this
        injection this with this
        exact absurd this.symm hi
    · intro i hws2 hph
      exact Option.noConfusion hws2
  · case h_2 hws =>
    have hws' : w.ws = none := hws
    constructor
    · intro i hl
      have hl' : (getSock w i).isLive = true := hl
      have := h1 i hl'
      rw [hws'] at this
      cases this
    · intro i hws2 hph
      have hws2' : w.ws = some i := hws2
      rw [hws'] at hws2'
      cases hws2'

theorem onOpenEvt_inv {C : Type} (sig : CallbackSig C) (w : World C) (s : Nat)
    (hI : Inv w) : Inv (onOpenEvt sig w s) := by
  obtain ⟨h1, h2⟩ := hI
  rcases hph : (getSock w s).phase with _ | _ | _ | _
  case connecting =>
    have hlt : s < w.socks.length :=
      lt_of_phase_ne_closed w s (by rw [hph]; exact fun hc => by cases hc)
    have hws : w.ws = some s := h1 s ((isLive_iff _).mpr (Or.inl hph))
    simp only [onOpenEvt, hph]
    split
    · case isTrue hcond =>
      split
      · case h_1 cur hcur =>
        have hcur' : w.ws = some cur := hcur
        have hcs : cur = s := by
          rw [hws] at hcur'
          injection hcur' with h
          exact h.symm
        subst hcs
        constructor
        · intro i hl
          by_cases hi : i = cur
          · subst hi
            have hl' : (getSock (closeSock
                (setSock w i { getSock w i with phase := SockPhase.opened }) i) i).isLive = true := hl
            have hnl := getSock_closeSock_not_live
              (setSock w i { getSock w i with phase := SockPhase.opened }) i
            cases hl'.symm.trans hnl
          · have hl' : (getSock (closeSock
                (setSock w cur { getSock w cur with phase := SockPhase.opened }) cur) i).isLive = true := hl
            rw [getSock_closeSock_ne _ cur i (Ne.symm hi),
              getSock_setSock_ne w cur i _ (Ne.symm hi)] at hl'
            have := h1 i hl'
            rw [hws] at this
            injection this with this
            exact absurd this.symm hi
        · intro i hws2 hph2
          have hws2' : w.ws = some i := by
            have hthis : (closeSock (setSock w cur
                { getSock w cur with phase := SockPhase.opened }) cur).ws = some i := hws2
            rw [closeSock_ws] at hthis
            exact hthis
          rw [hws] at hws2'
          injection hws2' with hws2'
          subst hws2'
          have hlt2 : cur < (setSock w cur
              { getSock w cur with phase := SockPhase.opened }).socks.length := by
            simpa [setSock] using hlt
          have hph2' : (getSock (closeSock
              (setSock w cur { getSock w cur with phase := SockPhase.opened }) cur) cur).phase
              = SockPhase.connecting := hph2
          have hred : closeSock (setSock w cur { getSock w cur with phase := SockPhase.opened }) cur
              = setSock (setSock w cur { getSock w cur with phase := SockPhase.opened }) cur
                  { getSock (setSock w cur { getSock w cur with phase := SockPhase.opened }) cur
                      with phase := SockPhase.closing } := by
            unfold closeSock
            rw [getSock_setSock_self w cur _ hlt]
          rw [hred, getSock_setSock_self _ cur _ hlt2] at hph2'
          cases hph2'
      · case h_2 hcur =>
        have hcur' : w.ws = none := hcur
        rw [hws] at hcur'
        cases hcur'
    · case isFalse hcond =>
      rw [emitTo_eq]
      constructor
      · intro i hl
        by_cases hi : i = s
        · subst hi
          exact hws ▸ rfl
        · have hl' : (getSock (setSock w s { getSock w s with phase := SockPhase.opened }) i).isLive
              = true := hl
          rw [getSock_setSock_ne w s i _ (Ne.symm hi)] at hl'
          have := h1 i hl'
          rw [hws] at this
          injection this with this
          exact absurd this.symm hi
      · intro i hws2 hph2
        have hws2' : w.ws = some i := hws2
        rw [hws] at hws2'
        injection hws2' with hws2'
        subst hws2'
        have hph2' : (getSock (setSock w s { getSock w s with phase := SockPhase.opened }) s).phase
            = SockPhase.connecting := hph2
        rw [getSock_setSock_self w s _ hlt] at hph2'
        cases hph2'
  case opened =>
    simp only [onOpenEvt, hph]
    exact ⟨h1, h2⟩
  case closing =>
    simp only [onOpenEvt, hph]
    exact ⟨h1, h2⟩
  case closed =>
    simp only [onOpenEvt, hph]
    exact ⟨h1, h2⟩

end WS

namespace WS

theorem onErrorEvt_inv {C : Type} (sig : CallbackSig C) (w : World C) (s : Nat)
    (hI : Inv w) (hws : w.ws = some s) : Inv (onErrorEvt sig w s) := by
  obtain ⟨h1, h2⟩ := hI
  unfold onErrorEvt
  split
  · exact ⟨h1, h2⟩
  · case h_2 hnotclosed =>
    rw [emitTo_eq]
    have hne : (getSock w s).phase ≠ SockPhase.closed := by
      intro hc
      exact hnotclosed (by rw [hc])
    have hlt : s < w.socks.length := lt_of_phase_ne_closed w s hne
    constructor
    · intro i hl
      by_cases hi : i = s
      · subst hi
        have hl' : (getSock (setSock w i { getSock w i with phase := SockPhase.closed }) i).isLive
            = true := hl
        rw [getSock_setSock_self w i _ hlt] at hl'
        cases hl'
      · have hl' : (getSock (setSock w s { getSock w s with phase := SockPhase.closed }) i).isLive
            = true := hl
        rw [getSock_setSock_ne w s i _ (Ne.symm hi)] at hl'
        have := h1 i hl'
        rw [hws] at this
        injection this with this
        exact absurd this.symm hi
    · intro i hws2 hph2
      have hws2' : w.ws = some i := hws2
      rw [hws] at hws2'
      injection hws2' with hws2'
      subst hws2'
      have hph2' : (getSock (setSock w s { getSock w s with phase := SockPhase.closed }) s).phase
          = SockPhase.connecting := hph2
      rw [getSock_setSock_self w s _ hlt] at hph2'
      cases hph2'

theorem onCloseEvt_inv {C : Type} (sig : CallbackSig C) (w : World C) (s : Nat) (code : Nat)
    (hI : Inv w) : Inv (onCloseEvt sig w s code) := by
  obtain ⟨h1, h2⟩ := hI
  unfold onCloseEvt
  split
  · exact ⟨h1, h2⟩
  · case isFalse hce =>
    have hce' : (getSock w s).closeEvented = false := by
      rcases hb : (getSock w s).closeEvented with _ | _
      · rfl
      · exact absurd (by rw [hb]) hce
    have hlt : s < w.socks.length := lt_of_not_closeEvented w s hce'
    dsimp only
    split
    · case isTrue hne =>
      have hne' : w.ws ≠ some s := hne
      constructor
      · intro i hl
        by_cases hi : i = s
        · subst hi
          have hl' : (getSock (setSock w i { phase := SockPhase.closed, closeEvented := true }) i).isLive
              = true := hl
          rw [getSock_setSock_self w i _ hlt] at hl'
          cases hl'
        · have hl' : (getSock (setSock w s { phase := SockPhase.closed, closeEvented := true }) i).isLive
              = true := hl
          rw [getSock_setSock_ne w s i _ (Ne.symm hi)] at hl'
          exact h1 i hl'
      · intro i hws2 hph2
        have hws2' : w.ws = some i := hws2
        by_cases hi : i = s
        · subst hi
          exact absurd hws2' hne'
        · have hph2' : (getSock (setSock w s { phase := SockPhase.closed, closeEvented := true }) i).phase
              = SockPhase.connecting := hph2
          rw [getSock_setSock_ne w s i _ (Ne.symm hi)] at hph2'
          exact h2 i hws2' hph2'
    · case isFalse hne =>
      have hws : w.ws = some s := by
        by_contra hc
        exact hne (by exact hc)
      have hInv1 : ∀ i, (getSock (setSock w s { phase := SockPhase.closed, closeEvented := true }) i).isLive
          = true → False := by
        intro i hl
        by_cases hi : i = s
        · subst hi
          rw [getSock_setSock_self w i _ hlt] at hl
          cases hl
        · rw [getSock_setSock_ne w s i _ (Ne.symm hi)] at hl
          have := h1 i hl
          rw [hws] at this
          injection this with this
          exact absurd this.symm hi
      simp only [emitTo_eq]
      split
      · exact ⟨fun i hl => (hInv1 i hl).elim,
               fun i hws2 hph2 => Option.noConfusion hws2⟩
      · split
        · exact ⟨fun i hl => (hInv1 i hl).elim,
                 fun i hws2 hph2 => Option.noConfusion hws2⟩
        · split
          · exact ⟨fun i hl => (hInv1 i hl).elim,
                   fun i hws2 hph2 => Option.noConfusion hws2⟩
          · exact ⟨fun i hl => (hInv1 i hl).elim,
                   fun i hws2 hph2 => Option.noConfusion hws2⟩

theorem timerFire_inv {C : Type} (sig : CallbackSig C) (w : World C)
    (hI : Inv w) : Inv (timerFire sig w) := by
  obtain ⟨h1, h2⟩ := hI
  unfold timerFire
  split
  · exact ⟨h1, h2⟩
  · dsimp only
    split
    · exact connect_inv sig { w with timers := w.timers - 1 } _ ⟨h1, h2⟩
    · rw [emitTo_eq]
      exact ⟨h1, h2⟩

theorem step_inv {C : Type} (sig : CallbackSig C) (w : World C) (a : Act C)
    (hI : Inv w) (hE : errOK w a) : Inv (step sig w a) := by
  cases a with
  | connect cbs => exact connect_inv sig w cbs hI
  | disconnect => exact disconnect_inv sig w hI
  | sockOpen s => exact onOpenEvt_inv sig w s hI
  | sockError s => exact onErrorEvt_inv sig w s hI (hE s rfl)
  | sockClose s code => exact onCloseEvt_inv sig w s code hI
  | timerFire => exact timerFire_inv sig w hI
  | setToken t => exact hI

theorem runOK_inv {C : Type} (sig : CallbackSig C) (w : World C) (tr : List (Act C))
    (hI : Inv w) (hok : runOK sig w tr) : Inv (run sig w tr) := by
  induction tr generalizing w with
  | nil => exact hI
  | cons a tr ih =>
    obtain ⟨hE, hok'⟩ := hok
    exact ih (step sig w a) (step_inv sig w a hI hE) hok'

theorem init_inv {C : Type} (sig : CallbackSig C) (t : Option String) : Inv (init sig t) := by
  constructor
  · intro i hl
    have hl' : (getSock (init sig t) i).isLive = true := hl
    rw [show getSock (init sig t) i = { phase := .closed, closeEvented := true } from
      listGetD_ge _ i _ (Nat.zero_le i)] at hl'
    cases hl'
  · intro i hws2 hph2
    exact Option.noConfusion hws2

end WS

namespace WS

theorem connect_attempts {C : Type} (sig : CallbackSig C) (w : World C) (cbs : C) :
    (connect sig w cbs).reconnectAttempts = w.reconnectAttempts := by
  unfold connect updateCallbacks
  split
  · rfl
  · split
    · rfl
    · dsimp only
      split
      · rw [emitTo_eq]
      · rfl

theorem step_attempts_le {C : Type} (sig : CallbackSig C) (w : World C) (a : Act C)
    (h : w.reconnectAttempts ≤ maxReconnectAttempts) :
    (step sig w a).reconnectAttempts ≤ maxReconnectAttempts := by
  cases a with
  | connect cbs =>
    rw [step, connect_attempts]
    exact h
  | disconnect =>
    show (disconnect sig w).reconnectAttempts ≤ maxReconnectAttempts
    unfold disconnect
    dsimp only
    split
    · rw [closeSock_attempts]
      exact h
    · exact h
  | sockOpen s =>
    show (onOpenEvt sig w s).reconnectAttempts ≤ maxReconnectAttempts
    unfold onOpenEvt
    split
    · dsimp only
      split
      · split
        · rw [closeSock_attempts]
          exact h
        · exact h
      · rw [emitTo_eq]
        exact Nat.zero_le _
    · exact h
  | sockError s =>
    show (onErrorEvt sig w s).reconnectAttempts ≤ maxReconnectAttempts
    unfold onErrorEvt
    split
    · exact h
    · rw [emitTo_eq]
      exact h
  | sockClose s code =>
    show (onCloseEvt sig w s code).reconnectAttempts ≤ maxReconnectAttempts
    unfold onCloseEvt
    split
    · exact h
    · dsimp only
      split
      · exact h
      · simp only [emitTo_eq]
        split
        · exact h
        · split
          · case isTrue hcond => exact hcond.2
          · split
            · exact h
            · exact h
  | timerFire =>
    show (timerFire sig w).reconnectAttempts ≤ maxReconnectAttempts
    unfold timerFire
    split
    · exact h
    · dsimp only
      split
      · rw [connect_attempts]
        exact h
      · rw [emitTo_eq]
        exact h
  | setToken t => exact h

theorem run_attempts_le {C : Type} (sig : CallbackSig C) (w : World C) (tr : List (Act C))
    (h : w.reconnectAttempts ≤ maxReconnectAttempts) :
    (run sig w tr).reconnectAttempts ≤ maxReconnectAttempts := by
  induction tr generalizing w with
  | nil => exact h
  | cons a tr ih => exact ih (step sig w a) (step_attempts_le sig w a h)

theorem onClose_1008 {C : Type} (sig : CallbackSig C) (w : World C) (s : Nat) (hid : Nat)
    (hws : w.ws = some s) (hce : (getSock w s).closeEvented = false)
    (herr : sig.onError w.callbacks = some hid) :
    (step sig w (.sockClose s 1008)).timers = w.timers ∧
    (step sig w (.sockClose s 1008)).shouldReconnect = false ∧
    Evt.cbError hid authFailedMsg ∈ (step sig w (.sockClose s 1008)).events := by
  simp only [step, onCloseEvt, hce, setSock, emitTo, hws]
  cases hd : sig.onDisconnect w.callbacks <;>
    simp [hd, herr]

theorem onClose_exhausted {C : Type} (sig : CallbackSig C) (w : World C) (s : Nat) (hid : Nat)
    (code : Nat) (hws : w.ws = some s) (hce : (getSock w s).closeEvented = false)
    (hatt : w.reconnectAttempts = maxReconnectAttempts)
    (herr : sig.onError w.callbacks = some hid) :
    (step sig w (.sockClose s code)).timers = w.timers ∧
    (step sig w (.sockClose s code)).shouldReconnect = false ∧
    ∃ msg, Evt.cbError hid msg ∈ (step sig w (.sockClose s code)).events := by
  by_cases hc : code = 1008
  · subst hc
    obtain ⟨ht, hs, hm⟩ := onClose_1008 sig w s hid hws hce herr
    exact ⟨ht, hs, authFailedMsg, hm⟩
  · simp only [step, onCloseEvt, hce, setSock, emitTo_eq, hws, hatt]
    cases hd : sig.onDisconnect w.callbacks <;>
      simp [hd, herr, hc, maxReconnectAttempts, emitTo_eq]

theorem onOpen_resets {C : Type} (sig : CallbackSig C) (w : World C) (s : Nat)
    (hph : (getSock w s).phase = SockPhase.connecting)
    (hws : w.ws = some s) (hsr : w.shouldReconnect = true) :
    (step sig w (.sockOpen s)).reconnectAttempts = 0 := by
  simp only [step, onOpenEvt, hph]
  have hcond : ¬((setSock w s { getSock w s with phase := SockPhase.opened }).ws ≠ some s ∨
      (setSock w s { getSock w s with phase := SockPhase.opened }).shouldReconnect = false) := by
    rw [not_or]
    constructor
    · intro hne
      exact hne (by exact hws)
    · intro hf
      have : w.shouldReconnect = false := hf
      rw [hsr] at this
      cases this
  rw [if_neg hcond, emitTo_eq]

theorem onClose_stale {C : Type} (sig : CallbackSig C) (w : World C) (s : Nat) (code : Nat)
    (hne : w.ws ≠ some s) :
    (step sig w (.sockClose s code)).ws = w.ws ∧
    (step sig w (.sockClose s code)).reconnectAttempts = w.reconnectAttempts ∧
    (step sig w (.sockClose s code)).isConnecting = w.isConnecting ∧
    (step sig w (.sockClose s code)).shouldReconnect = w.shouldReconnect ∧
    (step sig w (.sockClose s code)).callbacks = w.callbacks ∧
    (step sig w (.sockClose s code)).timers = w.timers ∧
    (step sig w (.sockClose s code)).events = w.events := by
  show (onCloseEvt sig w s code).ws = w.ws ∧ (onCloseEvt sig w s code).reconnectAttempts = w.reconnectAttempts ∧
    (onCloseEvt sig w s code).isConnecting = w.isConnecting ∧
    (onCloseEvt sig w s code).shouldReconnect = w.shouldReconnect ∧
    (onCloseEvt sig w s code).callbacks = w.callbacks ∧
    (onCloseEvt sig w s code).timers = w.timers ∧
    (onCloseEvt sig w s code).events = w.events
  unfold onCloseEvt
  split
  · exact ⟨rfl, rfl, rfl, rfl, rfl, rfl, rfl⟩
  · dsimp only
    rw [if_pos (by exact hne : (setSock w s { phase := SockPhase.closed, closeEvented := true }).ws ≠ some s)]
    exact ⟨rfl, rfl, rfl, rfl, rfl, rfl, rfl⟩

end WS

theorem findIdx_none_of_not_mem (l : List String) (c : String) (h : c ∉ l) :
    l.findIdx? (fun x => x = c) = none := by
  induction l with
  | nil => rfl
  | cons a l ih =>
    simp only [List.mem_cons, not_or] at h
    simp [List.findIdx?_cons, Ne.symm h.1, ih h.2]

theorem ite_pair_sel {c : Prop} [Decidable c] (a : String) (st : Chart.NavState) (o : Option String) :
    ((if c then ({ currentSymbol := a, selectedIndex := st.selectedIndex }, o)
      else (st, none)) : Chart.NavState × Option String).1.selectedIndex = st.selectedIndex := by
  split <;> rfl

theorem ite_pair_change {c : Prop} [Decidable c] (a : String) (st st' : Chart.NavState) (sym : String)
    (h : (if c then (({ currentSymbol := a, selectedIndex := none } : Chart.NavState), some a)
          else (st, none)) = (st', some sym)) :
    st'.selectedIndex = none := by
  split at h
  · rw [Prod.mk.injEq] at h
    obtain ⟨h1, h2⟩ := h
    subst h1
    rfl
  · exact absurd h (by simp)

theorem foldl_min_le_init (l : List Rat) (a : Rat) : l.foldl min a ≤ a := by
  induction l generalizing a with
  | nil => exact le_refl a
  | cons x l ih => exact le_trans (ih (min a x)) (min_le_left a x)

theorem foldl_min_le_mem (l : List Rat) (a x : Rat) (hx : x ∈ l) : l.foldl min a ≤ x := by
  induction l generalizing a with
  | nil => cases hx
  | cons y l ih =>
    rcases List.mem_cons.mp hx with h | h
    · subst h
      exact le_trans (foldl_min_le_init l (min a x)) (min_le_right a x)
    · exact ih (min a y) h

theorem le_foldl_max_init (l : List Rat) (a : Rat) : a ≤ l.foldl max a := by
  induction l generalizing a with
  | nil => exact le_refl a
  | cons x l ih => exact le_trans (le_max_left a x) (ih (max a x))

theorem le_foldl_max_mem (l : List Rat) (a x : Rat) (hx : x ∈ l) : x ≤ l.foldl max a := by
  induction l generalizing a with
  | nil => cases hx
  | cons y l ih =>
    rcases List.mem_cons.mp hx with h | h
    · subst h
      exact le_trans (le_max_right a x) (le_foldl_max_init l (max a x))
    · exact ih (max a y) h

theorem listMin_le_of_mem (l : List Rat) (x : Rat) (hx : x ∈ l) : Chart.listMin l ≤ x := by
  cases l with
  | nil => cases hx
  | cons y t =>
    rcases List.mem_cons.mp hx with h | h
    · subst h
      exact foldl_min_le_init t x
    · exact foldl_min_le_mem t y x h

theorem le_listMax_of_mem (l : List Rat) (x : Rat) (hx : x ∈ l) : x ≤ Chart.listMax l := by
  cases l with
  | nil => cases hx
  | cons y t =>
    rcases List.mem_cons.mp hx with h | h
    · subst h
      exact le_foldl_max_init t x
    · exact le_foldl_max_mem t y x h

theorem scaledRange_pos (cs : List Chart.Candle) (hne : cs ≠ [])
    (hlh : ∀ c ∈ cs, c.low ≤ c.high) : 0 < Chart.scaledRange cs := by
  obtain ⟨c, rest, rfl⟩ := List.exists_cons_of_ne_nil hne
  have h1 : Chart.minPrice (c :: rest) ≤ c.low :=
    listMin_le_of_mem _ _ (by simp [List.mem_map])
  have h2 : c.high ≤ Chart.maxPrice (c :: rest) :=
    le_listMax_of_mem _ _ (by simp [List.mem_map])
  have h3 : Chart.minPrice (c :: rest) ≤ Chart.maxPrice (c :: rest) :=
    le_trans h1 (le_trans (hlh c (List.mem_cons_self c rest)) h2)
  unfold Chart.scaledRange Chart.maxPriceScaled Chart.minPriceScaled Chart.pricePadding Chart.priceRange
  by_cases h0 : Chart.maxPrice (c :: rest) - Chart.minPrice (c :: rest) = 0
  · rw [if_pos h0]
    linarith
  · rw [if_neg h0]
    have hpos : 0 < Chart.maxPrice (c :: rest) - Chart.minPrice (c :: rest) :=
      lt_of_le_of_ne (by linarith) (Ne.symm h0)
    linarith

/-- C1: the claim states that after `disconnect()`, a pending reconnect
timer that fires performs no reconnection (the `shouldReconnect` flag
checked at fire time, no new socket, no callback).  The code disagrees:
the timer body re-reads only the auth token and calls
`this.connect(this.callbacks)`, which re-arms `shouldReconnect` and — the
guards passing, since `disconnect()` cleared `ws` and `isConnecting` —
creates a brand-new socket (with the emptied callback set).  Evaluating the
machine on `c1Trace` (connect; transport close 1000, scheduling the timer;
disconnect; timer fires with the token still present) shows a second
socket created after the disconnect, left CONNECTING as the active handle
with reconnection re-enabled. -/
theorem c1_disconnect_pending_timer_still_reconnects :
    (WS.run accountSig (WS.init accountSig (some "tok")) c1Trace).socks.length = 2 ∧
    (WS.run accountSig (WS.init accountSig (some "tok")) c1Trace).ws = some 1 ∧
    (WS.getSock (WS.run accountSig (WS.init accountSig (some "tok")) c1Trace) 1).phase
      = WS.SockPhase.connecting ∧
    (WS.run accountSig (WS.init accountSig (some "tok")) c1Trace).shouldReconnect = true ∧
    (WS.run accountSig (WS.init accountSig (some "tok")) c1Trace).timers = 0 :=
  ⟨rfl, rfl, rfl, rfl, rfl⟩

/-- C2: a close event with code 1008 delivered on the active socket — in
any state, whatever `shouldReconnect` and `reconnectAttempts` hold —
schedules no reconnect timer, sets `shouldReconnect` to false, and invokes
the registered `onError` handler with the authentication-failure message;
this holds for the account channel and the signal channel alike. -/
theorem c2_close1008_suppresses_reconnect :
    (∀ (w : WS.World WebSocketCallbacks) (s hid : Nat),
      w.ws = some s → (WS.getSock w s).closeEvented = false →
      w.callbacks.onError = some hid →
      (WS.step accountSig w (.sockClose s 1008)).timers = w.timers ∧
      (WS.step accountSig w (.sockClose s 1008)).shouldReconnect = false ∧
      WS.Evt.cbError hid WS.authFailedMsg ∈ (WS.step accountSig w (.sockClose s 1008)).events) ∧
    (∀ (w : WS.World WebSocketClientCallbacks) (s hid : Nat),
      w.ws = some s → (WS.getSock w s).closeEvented = false →
      w.callbacks.onError = some hid →
      (WS.step clientSig w (.sockClose s 1008)).timers = w.timers ∧
      (WS.step clientSig w (.sockClose s 1008)).shouldReconnect = false ∧
      WS.Evt.cbError hid WS.authFailedMsg ∈ (WS.step clientSig w (.sockClose s 1008)).events) :=
  ⟨fun w s hid h1 h2 h3 => WS.onClose_1008 accountSig w s hid h1 h2 h3,
   fun w s hid h1 h2 h3 => WS.onClose_1008 clientSig w s hid h1 h2 h3⟩

/-- C2 witness: the hypotheses hold at the concrete open worlds of the two
channels, and the theorem applied there gives the concrete conclusion. -/
theorem c2_close1008_suppresses_reconnect_witness :
    (wOpenA.ws = some 0 ∧ (WS.getSock wOpenA 0).closeEvented = false ∧
      wOpenA.callbacks.onError = some 6 ∧
      ((WS.step accountSig wOpenA (.sockClose 0 1008)).timers = wOpenA.timers ∧
       (WS.step accountSig wOpenA (.sockClose 0 1008)).shouldReconnect = false ∧
       WS.Evt.cbError 6 WS.authFailedMsg ∈ (WS.step accountSig wOpenA (.sockClose 0 1008)).events)) ∧
    (wOpenC.ws = some 0 ∧ (WS.getSock wOpenC 0).closeEvented = false ∧
      wOpenC.callbacks.onError = some 12 ∧
      ((WS.step clientSig wOpenC (.sockClose 0 1008)).timers = wOpenC.timers ∧
       (WS.step clientSig wOpenC (.sockClose 0 1008)).shouldReconnect = false ∧
       WS.Evt.cbError 12 WS.authFailedMsg ∈ (WS.step clientSig wOpenC (.sockClose 0 1008)).events)) :=
  ⟨⟨rfl, rfl, rfl, c2_close1008_suppresses_reconnect.1 wOpenA 0 6 rfl rfl rfl⟩,
   ⟨rfl, rfl, rfl, c2_close1008_suppresses_reconnect.2 wOpenC 0 12 rfl rfl rfl⟩⟩

/-- C3: (1) in every reachable state of the account machine
`reconnectAttempts` is at most the configured maximum 5; (2) a close event
delivered on the active socket while `reconnectAttempts` is 5 leaves the
timer count unchanged (no further timer), disables reconnection, and
invokes the registered `onError` handler (terminal error); (3) an `open`
event on the active, non-superseded socket (with reconnection enabled)
resets `reconnectAttempts` to 0. -/
theorem c3_reconnect_attempts_bounded :
    (∀ (t : Option String) (tr : List (WS.Act WebSocketCallbacks)),
      (WS.run accountSig (WS.init accountSig t) tr).reconnectAttempts
        ≤ WS.maxReconnectAttempts) ∧
    (∀ (w : WS.World WebSocketCallbacks) (s hid code : Nat),
      w.ws = some s → (WS.getSock w s).closeEvented = false →
      w.reconnectAttempts = WS.maxReconnectAttempts → w.callbacks.onError = some hid →
      (WS.step accountSig w (.sockClose s code)).timers = w.timers ∧
      (WS.step accountSig w (.sockClose s code)).shouldReconnect = false ∧
      ∃ msg, WS.Evt.cbError hid msg ∈ (WS.step accountSig w (.sockClose s code)).events) ∧
    (∀ (w : WS.World WebSocketCallbacks) (s : Nat),
      (WS.getSock w s).phase = .connecting → w.ws = some s → w.shouldReconnect = true →
      (WS.step accountSig w (.sockOpen s)).reconnectAttempts = 0) :=
  ⟨fun t tr => WS.run_attempts_le accountSig (WS.init accountSig t) tr (Nat.zero_le _),
   fun w s hid code h1 h2 h3 h4 => WS.onClose_exhausted accountSig w s hid code h1 h2 h3 h4,
   fun w s h1 h2 h3 => WS.onOpen_resets accountSig w s h1 h2 h3⟩

/-- C3 witness: the bound after the empty trace, the exhausted close at the
concrete world `wMaxA` (a normal close code 1000), and the attempt reset
at the concrete connecting world `wConnA`. -/
theorem c3_reconnect_attempts_bounded_witness :
    ((WS.run accountSig (WS.init accountSig (some "tok")) []).reconnectAttempts
        ≤ WS.maxReconnectAttempts) ∧
    (wMaxA.reconnectAttempts = WS.maxReconnectAttempts ∧
      ((WS.step accountSig wMaxA (.sockClose 0 1000)).timers = wMaxA.timers ∧
       (WS.step accountSig wMaxA (.sockClose 0 1000)).shouldReconnect = false ∧
       ∃ msg, WS.Evt.cbError 6 msg ∈ (WS.step accountSig wMaxA (.sockClose 0 1000)).events)) ∧
    ((WS.getSock wConnA 0).phase = .connecting ∧
      (WS.step accountSig wConnA (.sockOpen 0)).reconnectAttempts = 0) :=
  ⟨c3_reconnect_attempts_bounded.1 (some "tok") [],
   ⟨rfl, c3_reconnect_attempts_bounded.2.1 wMaxA 0 6 1000 rfl rfl rfl rfl⟩,
   ⟨rfl, c3_reconnect_attempts_bounded.2.2 wConnA 0 rfl rfl rfl⟩⟩

/-- C4 counterexample: the claim (for EVERY sequence of connect,
disconnect and transport open/close/error events, never two
simultaneously-live sockets) is false on the code: in `c4Trace` the
aborted first socket fires its `error` event while a second socket is the
active connecting handle; the `onerror` handler has no staleness check and
clears `isConnecting`, so a further `connect()` passes both guards and
creates a third socket while the second is still CONNECTING — two live
sockets at once (`liveCount` 2). -/
theorem c4_two_live_sockets_counterexample :
    (WS.getSock (WS.run accountSig (WS.init accountSig (some "tok")) c4Trace) 1).isLive = true ∧
    (WS.getSock (WS.run accountSig (WS.init accountSig (some "tok")) c4Trace) 2).isLive = true ∧
    (1 : Nat) ≠ 2 ∧
    WS.liveCount (WS.run accountSig (WS.init accountSig (some "tok")) c4Trace) = 2 :=
  ⟨rfl, rfl, by decide, rfl⟩

/-- C4 (amended): in every execution of the account machine in which
transport `error` events are delivered only for the active socket handle
(the `onerror` handler performs no reference-identity check, so stale
error events are exactly the unguarded case), at most one socket is ever
live and every live socket is the active handle; moreover a delayed close
event from a superseded socket (one that is not the active handle, by
reference identity) leaves every service field — active handle, attempt
counter, flags, callbacks, timers, event trace — unchanged. -/
theorem c4_single_live_socket_amended :
    (∀ (t : Option String) (tr : List (WS.Act WebSocketCallbacks)),
      WS.runOK accountSig (WS.init accountSig t) tr →
      (∀ i j, (WS.getSock (WS.run accountSig (WS.init accountSig t) tr) i).isLive = true →
              (WS.getSock (WS.run accountSig (WS.init accountSig t) tr) j).isLive = true →
              i = j) ∧
      (∀ i, (WS.getSock (WS.run accountSig (WS.init accountSig t) tr) i).isLive = true →
            (WS.run accountSig (WS.init accountSig t) tr).ws = some i)) ∧
    (∀ (w : WS.World WebSocketCallbacks) (s code : Nat), w.ws ≠ some s →
      (WS.step accountSig w (.sockClose s code)).ws = w.ws ∧
      (WS.step accountSig w (.sockClose s code)).reconnectAttempts = w.reconnectAttempts ∧
      (WS.step accountSig w (.sockClose s code)).isConnecting = w.isConnecting ∧
      (WS.step accountSig w (.sockClose s code)).shouldReconnect = w.shouldReconnect ∧
      (WS.step accountSig w (.sockClose s code)).callbacks = w.callbacks ∧
      (WS.step accountSig w (.sockClose s code)).timers = w.timers ∧
      (WS.step accountSig w (.sockClose s code)).events = w.events) := by
  constructor
  · intro t tr hok
    have hI := WS.runOK_inv accountSig (WS.init accountSig t) tr (WS.init_inv accountSig t) hok
    refine ⟨fun i j hi hj => ?_, hI.1⟩
    have hwi := hI.1 i hi
    have hwj := hI.1 j hj
    rw [hwi] at hwj
    exact Option.some.inj hwj
  · intro w s code hne
    exact WS.onClose_stale accountSig w s code hne

/-- C4 amended witness: the invariant after the empty (trivially
error-disciplined) trace, and the stale-close immutability at the idle
world for socket 0. -/
theorem c4_single_live_socket_amended_witness :
    (WS.runOK accountSig (WS.init accountSig (some "tok")) [] ∧
      (∀ i, (WS.getSock (WS.run accountSig (WS.init accountSig (some "tok")) []) i).isLive = true →
            (WS.run accountSig (WS.init accountSig (some "tok")) []).ws = some i)) ∧
    (wIdleA.ws ≠ some 0 ∧
      (WS.step accountSig wIdleA (.sockClose 0 1000)).events = wIdleA.events) :=
  ⟨⟨trivial, (c4_single_live_socket_amended.1 (some "tok") [] trivial).2⟩,
   ⟨by decide, (c4_single_live_socket_amended.2 wIdleA 0 1000 (by decide)).2.2.2.2.2.2⟩⟩

/-- C5: calling `connect(cbs)` while the connection is Open (the active
handle's ready state is OPEN) or while a connection attempt is in progress
(`isConnecting`) changes nothing but the callback registration: the
resulting world is the same world with `cbs` merged into the callbacks —
in particular no socket is created and no `onConnect` is invoked. -/
theorem c5_connect_idempotent :
    ∀ (w : WS.World WebSocketCallbacks) (cbs : WebSocketCallbacks),
      ((∃ s, w.ws = some s ∧ (WS.getSock w s).phase = .opened) ∨ w.isConnecting = true) →
      WS.step accountSig w (.connect cbs) =
        { w with callbacks := WebSocketCallbacks.merge w.callbacks cbs } := by
  intro w cbs h
  have hro : WS.wsReadyOpen w = true ∨ w.isConnecting = true := by
    rcases h with ⟨s, hws, hph⟩ | hic
    · exact Or.inl (by simp [WS.wsReadyOpen, hws, hph])
    · exact Or.inr hic
  by_cases hb : WS.wsReadyOpen w = true
  · simp [WS.step, WS.connect, hb, WS.updateCallbacks, accountSig]
  · rcases hro with hro | hic
    · exact absurd hro hb
    · simp [WS.step, WS.connect, hb, hic, WS.updateCallbacks, accountSig]

/-- C5 witness: at the concrete open world `wOpenA`, a second `connect`
only merges the callbacks. -/
theorem c5_connect_idempotent_witness :
    (wOpenA.ws = some 0 ∧ (WS.getSock wOpenA 0).phase = .opened) ∧
    WS.step accountSig wOpenA (.connect cbFull) =
      { wOpenA with callbacks := WebSocketCallbacks.merge wOpenA.callbacks cbFull } :=
  ⟨⟨rfl, rfl⟩, c5_connect_idempotent wOpenA cbFull (Or.inl ⟨0, rfl, rfl⟩)⟩

/-- C6: calling `connect` in an idle world (no active or pending socket)
with no auth token in storage invokes the registered `onError` handler of
the merged callbacks with the descriptive missing-token message, creates
no socket, and leaves the connection idle (`ws` still none,
`isConnecting` still false, socket list and timers unchanged); the
embedding is a total function, so no exception escapes — the failure
surfaces only on the callback error channel. -/
theorem c6_missing_token_error :
    ∀ (w : WS.World WebSocketCallbacks) (cbs : WebSocketCallbacks) (hid : Nat),
      w.token = none → w.ws = none → w.isConnecting = false →
      (WebSocketCallbacks.merge w.callbacks cbs).onError = some hid →
      (WS.step accountSig w (.connect cbs)).ws = none ∧
      (WS.step accountSig w (.connect cbs)).isConnecting = false ∧
      (WS.step accountSig w (.connect cbs)).socks = w.socks ∧
      (WS.step accountSig w (.connect cbs)).timers = w.timers ∧
      (WS.step accountSig w (.connect cbs)).callbacks = WebSocketCallbacks.merge w.callbacks cbs ∧
      (WS.step accountSig w (.connect cbs)).events = .cbError hid WS.noTokenMsg :: w.events := by
  intro w cbs hid htok hws hic herr
  have hro : WS.wsReadyOpen w = false := by simp [WS.wsReadyOpen, hws]
  simp [WS.step, WS.connect, hro, hic, htok, WS.emitTo, accountSig, herr, hws]

/-- C6 witness: at the concrete idle token-less world `wIdleA`. -/
theorem c6_missing_token_error_witness :
    (wIdleA.token = none ∧ wIdleA.ws = none ∧ wIdleA.isConnecting = false) ∧
    (WS.step accountSig wIdleA (.connect cbFull)).socks = wIdleA.socks ∧
    (WS.step accountSig wIdleA (.connect cbFull)).events
      = .cbError 6 WS.noTokenMsg :: wIdleA.events :=
  ⟨⟨rfl, rfl, rfl⟩,
   (c6_missing_token_error wIdleA cbFull 6 rfl rfl rfl rfl).2.2.1,
   (c6_missing_token_error wIdleA cbFull 6 rfl rfl rfl rfl).2.2.2.2.2⟩

/-- C7 counterexample: the claim says every non-array payload of a
`positions` / `position_update` frame is wrapped in a singleton array, but
on the frame with kind `positions` and payload `null` (a non-array) the
code's `(data ? [data] : [])` emits the EMPTY array, not the singleton
`[null]` the claim requires. -/
theorem c7_null_positions_counterexample :
    handleMessage (mkFrame "positions" Json.null) = .emit (.positions []) ∧
    HandleResult.emit (Emit.positions []) ≠ .emit (.positions [.val .null]) :=
  ⟨rfl, by simp⟩

/-- C7 (amended): for frames of kind `positions` and `position_update` the
normalizer always emits an array to the positions callback: an array
payload passes through unchanged and a non-array payload is wrapped in a
singleton — except that under `positions` a falsy non-array payload
(null, false, 0, the empty string, or an absent data field) yields the
empty array instead of a singleton.  In particular the frame
`mkFrame "positions" (obj [(symbol, BTCUSDT)])` yields the singleton array
holding that object. -/
theorem c7_positions_normalization_amended :
    (handleMessage (mkFrame "positions" (.obj [("symbol", .str "BTCUSDT")]))
      = .emit (.positions [.val (.obj [("symbol", .str "BTCUSDT")])])) ∧
    (∀ xs : List Json,
      handleMessage (mkFrame "positions" (.arr xs)) = .emit (.positions (xs.map .val))) ∧
    (∀ d : Json, d.isArr = false → d.truthy = true →
      handleMessage (mkFrame "positions" d) = .emit (.positions [.val d])) ∧
    (∀ d : Json, d.isArr = false → d.truthy = false →
      handleMessage (mkFrame "positions" d) = .emit (.positions [])) ∧
    (∀ xs : List Json,
      handleMessage (mkFrame "position_update" (.arr xs)) = .emit (.positions (xs.map .val))) ∧
    (∀ d : Json, d.isArr = false →
      handleMessage (mkFrame "position_update" d) = .emit (.positions [.val d])) := by
  refine ⟨rfl, fun xs => ?_, fun d hA hT => ?_, fun d hA hT => ?_, fun xs => ?_, fun d hA => ?_⟩
  · simp [handleMessage, mkFrame, messageType, msgData, Json.fieldVal, Json.getField,
      Json.lookupField, JsVal.truthy, Json.truthy, positionsArray]
  · cases d <;> simp_all [handleMessage, mkFrame, messageType, msgData, Json.fieldVal,
      Json.getField, Json.lookupField, JsVal.truthy, Json.truthy, Json.isArr, positionsArray]
  · cases d <;> simp_all [handleMessage, mkFrame, messageType, msgData, Json.fieldVal,
      Json.getField, Json.lookupField, JsVal.truthy, Json.truthy, Json.isArr, positionsArray]
  · simp [handleMessage, mkFrame, messageType, msgData, Json.fieldVal, Json.getField,
      Json.lookupField, JsVal.truthy, Json.truthy, positionUpdateArray]
  · cases d <;> simp_all [handleMessage, mkFrame, messageType, msgData, Json.fieldVal,
      Json.getField, Json.lookupField, JsVal.truthy, Json.truthy, Json.isArr, positionUpdateArray]

/-- C7 amended witness: the quantified parts applied at concrete payloads —
a truthy non-array (the number 7), a falsy non-array (false), an array, and
`null` under `position_update`. -/
theorem c7_positions_normalization_amended_witness :
    (handleMessage (mkFrame "positions" (.num 7)) = .emit (.positions [.val (.num 7)])) ∧
    (handleMessage (mkFrame "positions" (.bool false)) = .emit (.positions [])) ∧
    (handleMessage (mkFrame "positions" (.arr [.num 1, .num 2]))
      = .emit (.positions [.val (.num 1), .val (.num 2)])) ∧
    (handleMessage (mkFrame "position_update" .null) = .emit (.positions [.val .null])) :=
  ⟨c7_positions_normalization_amended.2.2.1 (.num 7) rfl rfl,
   c7_positions_normalization_amended.2.2.2.1 (.bool false) rfl rfl,
   c7_positions_normalization_amended.2.1 [.num 1, .num 2],
   c7_positions_normalization_amended.2.2.2.2.2 .null rfl⟩

/-- C8 counterexample: the claim says every symbol change clears the
candle selection, but ArrowDown keyboard navigation on
`["A", "B", "C"]` at symbol `"C"` with candle 5 selected wraps to `"A"`
while LEAVING the selection at index 5 (the keyboard branch never touches
`selectedIndex`). -/
theorem c8_keyboard_keeps_selection_counterexample :
    Chart.handleKeyDownSymbolNav .arrowDown ["A", "B", "C"]
        { currentSymbol := "C", selectedIndex := some 5 }
      = ({ currentSymbol := "A", selectedIndex := some 5 }, some "A") ∧
    some 5 ≠ (none : Option Nat) :=
  ⟨rfl, by simp⟩

/-- C8 (amended): symbol navigation cycles with wrap-around at both ends —
on `["A", "B", "C"]` with current `"C"`, next (ArrowDown) selects `"A"` —
and is a no-op when the list is empty or does not contain the current
symbol (for both the keyboard and the swipe handler); a swipe that changes
the symbol clears the candle selection, but arrow-key symbol navigation
never changes the selection (it is NOT cleared on a keyboard symbol
change). -/
theorem c8_symbol_navigation_amended :
    (Chart.handleKeyDownSymbolNav .arrowDown ["A", "B", "C"]
        { currentSymbol := "C", selectedIndex := some 5 }
      = ({ currentSymbol := "A", selectedIndex := some 5 }, some "A")) ∧
    (∀ (key : Chart.ArrowKey) (st : Chart.NavState),
      Chart.handleKeyDownSymbolNav key [] st = (st, none)) ∧
    (∀ (key : Chart.ArrowKey) (syms : List String) (st : Chart.NavState),
      st.currentSymbol ∉ syms → Chart.handleKeyDownSymbolNav key syms st = (st, none)) ∧
    (∀ (key : Chart.ArrowKey) (syms : List String) (st : Chart.NavState),
      (Chart.handleKeyDownSymbolNav key syms st).1.selectedIndex = st.selectedIndex) ∧
    (∀ (sx sy ex ey : Int) (syms : List String) (st st' : Chart.NavState) (sym : String),
      Chart.handleTouchEndSwipeNav sx sy ex ey syms st = (st', some sym) →
      st'.selectedIndex = none) ∧
    (∀ (sx sy ex ey : Int) (st : Chart.NavState),
      Chart.handleTouchEndSwipeNav sx sy ex ey [] st = (st, none)) ∧
    (∀ (sx sy ex ey : Int) (syms : List String) (st : Chart.NavState),
      st.currentSymbol ∉ syms →
      Chart.handleTouchEndSwipeNav sx sy ex ey syms st = (st, none)) := by
  refine ⟨rfl, fun key st => rfl, fun key syms st h => ?_, fun key syms st => ?_,
    fun sx sy ex ey syms st st' sym h => ?_, fun sx sy ex ey st => rfl,
    fun sx sy ex ey syms st h => ?_⟩
  · simp [Chart.handleKeyDownSymbolNav, findIdx_none_of_not_mem syms st.currentSymbol h]
  · unfold Chart.handleKeyDownSymbolNav
    split
    · rfl
    · split
      · rfl
      · dsimp only
        exact ite_pair_sel _ st _
  · unfold Chart.handleTouchEndSwipeNav at h
    split at h
    · exact absurd h (by simp)
    · dsimp only at h
      split at h
      · split at h
        · exact absurd h (by simp)
        · exact ite_pair_change _ st st' sym h
      · exact absurd h (by simp)
  · simp [Chart.handleTouchEndSwipeNav, findIdx_none_of_not_mem syms st.currentSymbol h]

/-- C8 amended witness: the hypothesised parts applied concretely — a
symbol missing from the list for both handlers, and a concrete
selection-clearing swipe. -/
theorem c8_symbol_navigation_amended_witness :
    ("X" ∉ ["A", "B", "C"] ∧
      Chart.handleKeyDownSymbolNav .arrowDown ["A", "B", "C"]
          { currentSymbol := "X", selectedIndex := some 2 }
        = ({ currentSymbol := "X", selectedIndex := some 2 }, none)) ∧
    (Chart.handleTouchEndSwipeNav 100 0 0 10 ["A", "B", "C"]
        { currentSymbol := "C", selectedIndex := some 5 }
      = ({ currentSymbol := "B", selectedIndex := none }, some "B") ∧
      ({ currentSymbol := "B", selectedIndex := none } : Chart.NavState).selectedIndex = none) ∧
    Chart.handleTouchEndSwipeNav 100 0 0 10 ["A", "B", "C"]
        { currentSymbol := "X", selectedIndex := some 5 }
      = ({ currentSymbol := "X", selectedIndex := some 5 }, none) :=
  ⟨⟨by decide,
    c8_symbol_navigation_amended.2.2.1 .arrowDown ["A", "B", "C"]
      { currentSymbol := "X", selectedIndex := some 2 } (by decide)⟩,
   ⟨rfl,
    c8_symbol_navigation_amended.2.2.2.2.1 100 0 0 10 ["A", "B", "C"]
      { currentSymbol := "C", selectedIndex := some 5 }
      { currentSymbol := "B", selectedIndex := none } "B" rfl⟩,
   c8_symbol_navigation_amended.2.2.2.2.2.2 100 0 0 10 ["A", "B", "C"]
     { currentSymbol := "X", selectedIndex := some 5 } (by decide)⟩

/-- C9: rendering one candle with open = close = high = low = 100 divides
by no zero: the raw price range collapses to 0 but `|| 1` defaults it to
the nonzero spread 1 before the 10 percent padding, giving the scaled
divisor 1/5; and in general, for every nonempty candle list whose candles
satisfy low ≤ high, the scaled range (the divisor of the vertical
coordinate mapping) is strictly positive, so the mapping is total. -/
theorem c9_price_range_nonzero :
    Chart.priceRange [flatCandle] = 1 ∧
    Chart.scaledRange [flatCandle] = 1 / 5 ∧
    (∀ cs : List Chart.Candle, cs ≠ [] → (∀ c ∈ cs, c.low ≤ c.high) →
      0 < Chart.scaledRange cs) := by
  refine ⟨?_, ?_, fun cs hne hlh => scaledRange_pos cs hne hlh⟩
  · norm_num [Chart.priceRange, Chart.maxPrice, Chart.minPrice, Chart.listMin,
      Chart.listMax, flatCandle]
  · norm_num [Chart.scaledRange, Chart.maxPriceScaled, Chart.minPriceScaled,
      Chart.pricePadding, Chart.priceRange, Chart.maxPrice, Chart.minPrice,
      Chart.listMin, Chart.listMax, flatCandle]

/-- C9 witness: the general positivity applied to the concrete degenerate
one-candle dataset. -/
theorem c9_price_range_nonzero_witness :
    ([flatCandle] ≠ ([] : List Chart.Candle)) ∧ 0 < Chart.scaledRange [flatCandle] :=
  ⟨by simp, c9_price_range_nonzero.2.2 [flatCandle] (by simp) (by decide)⟩

/-- C10: the normalizer's null-payload behaviour differs between the two
position kinds: a `positions` frame with `null` (or absent) data emits the
empty array, while a `position_update` frame with `null` data wraps the
null — the emitted array is `[null]`. -/
theorem c10_null_payload_positions_vs_update :
    handleMessage (mkFrame "positions" .null) = .emit (.positions []) ∧
    handleMessage (mkFrameNoData "positions") = .emit (.positions []) ∧
    handleMessage (mkFrame "position_update" .null) = .emit (.positions [.val .null]) :=
  ⟨rfl, rfl, rfl⟩
